import Mathlib

/-!
Shallow embedding of `src/install_epm.py` (the epm installer/uninstaller)
and verification of its specification claims.

The Python string primitives used by the source (`str.splitlines`,
`str.strip`, `in`, `str.startswith`, `str.endswith`, `"\n".join`) are
embedded with their documented Python semantics.  The filesystem- and
process-level behaviour of `install`/`main` is embedded as a pure state
transformer over an explicit world record.
-/

namespace InstallEpm

/-- Python line-boundary characters, exactly the set recognised by
`str.splitlines`: LF, CR, VT, FF, FS, GS, RS, NEL, LINE SEPARATOR,
PARAGRAPH SEPARATOR. -/
def isLineBoundary (c : Char) : Bool :=
  let n := c.toNat
  n == 10 || n == 13 || n == 11 || n == 12 || n == 28 || n == 29 || n == 30 ||
    n == 133 || n == 8232 || n == 8233

/-- Python whitespace characters, the set stripped by `str.strip()`
(characters for which `str.isspace` holds). -/
def isPySpace (c : Char) : Bool :=
  let n := c.toNat
  (9 ≤ n && n ≤ 13) || (28 ≤ n && n ≤ 31) || n == 32 || n == 133 || n == 160 ||
    n == 5760 || (8192 ≤ n && n ≤ 8202) || n == 8232 || n == 8233 ||
    n == 8239 || n == 8287 || n == 12288

/-- Core of Python `str.splitlines` over a character list, with an
accumulator holding the (reversed) characters of the current line and a
flag recording whether the previous character was a carriage return.
A CRLF pair counts as a single line boundary (the line feed directly
after a carriage return is swallowed); a trailing segment without a
terminator still forms a line. -/
def splitlinesL : List Char → List Char → Bool → List (List Char)
  | [], acc, _ => if acc.isEmpty then [] else [acc.reverse]
  | c :: rest, acc, prevCR =>
    if prevCR && (c == '\n') then splitlinesL rest acc false
    else if isLineBoundary c then acc.reverse :: splitlinesL rest [] (c == '\r')
    else splitlinesL rest (c :: acc) false

/-- Python `str.splitlines`. -/
def pySplitlines (s : String) : List String :=
  (splitlinesL s.data [] false).map String.mk

/-- Core of Python `str.strip()` over a character list: drop leading and
trailing whitespace. -/
def stripL (l : List Char) : List Char :=
  ((l.dropWhile isPySpace).reverse.dropWhile isPySpace).reverse

/-- Python `str.strip()`. -/
def pyStrip (s : String) : String :=
  String.mk (stripL s.data)

/-- Python substring test `pat in s`. -/
def strContains (s pat : String) : Bool :=
  decide (pat.data <:+: s.data)

/-- Python `s.startswith(pat)`. -/
def pyStartsWith (s pat : String) : Bool :=
  decide (pat.data <+: s.data)

/-- Python `s.endswith(pat)`. -/
def pyEndsWith (s pat : String) : Bool :=
  decide (pat.data <:+ s.data)

/-- Python `"\n".join(lines)`. -/
def pyJoinNL : List String → String
  | [] => ""
  | [l] => l
  | l :: l2 :: ls => l ++ "\n" ++ pyJoinNL (l2 :: ls)

/-- Sentinel comment written next to the PATH export
(`EXPORT_MARK`, line 23 of the source). -/
def EXPORT_MARK : String := "# added by install_epm.py"

/-- The export line `export PATH="{bin_dir}:$PATH"` (lines 61 and 80). -/
def exportLine (bin_dir : String) : String :=
  "export PATH=\"" ++ bin_dir ++ ":$PATH\""

/-- The two rc files the installer may edit. -/
inductive RcKind
  | bashrc
  | zshrc
deriving DecidableEq, Repr

/-- Contents of the two candidate rc files; `none` means the file does
not exist. -/
structure RcState where
  bashrc : Option String
  zshrc : Option String
deriving DecidableEq, Repr

def RcState.get : RcState → RcKind → Option String
  | st, .bashrc => st.bashrc
  | st, .zshrc => st.zshrc

def RcState.set : RcState → RcKind → String → RcState
  | st, .bashrc, c => { st with bashrc := some c }
  | st, .zshrc, c => { st with zshrc := some c }

/-- Rc-file selection shared by `ensure_path_in_shell_rc` (lines 52-58)
and `remove_path_from_shell_rc` (lines 70-76): the `SHELL` value is
tested with `endswith("bash")`, then `endswith("zsh")`. -/
def rcFileFor (shell : String) : Option RcKind :=
  if pyEndsWith shell "bash" then some .bashrc
  else if pyEndsWith shell "zsh" then some .zshrc
  else none

/-- Pure content edit performed by `ensure_path_in_shell_rc`
(lines 61-66): append a blank line, the sentinel and the export line
unless the export line already occurs as a substring. -/
def ensureFileContent (bin_dir content : String) : String :=
  if strContains content (exportLine bin_dir) then content
  else content ++ "\n" ++ EXPORT_MARK ++ "\n" ++ exportLine bin_dir ++ "\n"

/-- `ensure_path_in_shell_rc` (lines 51-66) as a transformer of the rc
state: pick the rc file from the shell name, read it (empty if absent),
and append the marker block when the export line is missing.  When the
export line is already present the file is not written. -/
def ensure_path_in_shell_rc (bin_dir shell : String) (st : RcState) : RcState :=
  match rcFileFor shell with
  | none => st
  | some k =>
    let content := (st.get k).getD ""
    if strContains content (exportLine bin_dir) then st
    else st.set k (content ++ "\n" ++ EXPORT_MARK ++ "\n" ++ exportLine bin_dir ++ "\n")

/-- The scanning loop of `remove_path_from_shell_rc` (lines 81-90) with
its `skip` flag: a line stripping to the sentinel is dropped and sets
`skip`; while `skip` is set, a line stripping to the export line is
dropped and clears `skip`; every other line is kept. -/
def removeLines (bin_dir : String) : List String → Bool → List String
  | [], _ => []
  | line :: rest, skip =>
    if pyStrip line = EXPORT_MARK then removeLines bin_dir rest true
    else if skip ∧ pyStrip line = exportLine bin_dir then removeLines bin_dir rest false
    else line :: removeLines bin_dir rest skip

/-- Pure content edit performed by `remove_path_from_shell_rc`
(lines 79-91): split into lines, run the scanning loop, and join the
kept lines with newlines. -/
def removeFileContent (bin_dir content : String) : String :=
  pyJoinNL (removeLines bin_dir (pySplitlines content) false)

/-- `remove_path_from_shell_rc` (lines 69-92) as a transformer of the rc
state: pick the rc file from the shell name; if it exists, rewrite it
with the marker pair removed. -/
def remove_path_from_shell_rc (bin_dir shell : String) (st : RcState) : RcState :=
  match rcFileFor shell with
  | none => st
  | some k =>
    match st.get k with
    | none => st
    | some content => st.set k (removeFileContent bin_dir content)

/-- The interpreter directive prepended by `install` (line 111). -/
def SHEBANG : String := "#!/usr/bin/env python3\n"

/-- Header normalisation (lines 109-112): prepend the standard shebang
when the text does not already start with `#!`. -/
def normalizeHeader (text : String) : String :=
  if pyStartsWith text "#!" then text else SHEBANG ++ text

def S_IXUSR : Nat := 64

def S_IXGRP : Nat := 8

def S_IXOTH : Nat := 1

/-- `make_executable` (lines 46-48): or the three execute bits into the
file mode. -/
def make_executable (mode : Nat) : Nat :=
  mode ||| S_IXUSR ||| S_IXGRP ||| S_IXOTH

/-- Result of the HTTP GET in `download_epm` (lines 26-43). -/
inductive DownloadResult
  | ok (body : String)
  | httpError (code : Nat) (reason : String)
  | transportError (msg : String)
deriving DecidableEq, Repr

def DownloadResult.isFailure : DownloadResult → Bool
  | .ok _ => false
  | .httpError _ _ => true
  | .transportError _ => true

/-- Observable world state touched by `install`: the artifact at the
target path (content and mode), the rc files, whether the sudo wrapper
was fully installed, and the stderr log. -/
structure World where
  target : Option (String × Nat)
  rc : RcState
  wrapper : Bool
  stderrLog : List String
deriving DecidableEq, Repr

def World.targetMode (w : World) : Option Nat :=
  w.target.map Prod.snd

/-- Inputs of one `install` run: privilege level, `SHELL` value, the
resolved target directory (as it appears in the export line), the mode
of the freshly downloaded temporary file, the download result, and
whether the two sudo steps of the wrapper write succeed. -/
structure InstallEnv where
  isRoot : Bool
  shell : String
  binDir : String
  tmpMode : Nat
  download : DownloadResult
  teeOk : Bool
  chmodOk : Bool
deriving DecidableEq, Repr

/-- Final observation of a run: the process either terminated early via
`sys.exit code` or ran to completion. -/
inductive Outcome
  | exited (code : Nat) (w : World)
  | completed (w : World)
deriving DecidableEq, Repr

def Outcome.world : Outcome → World
  | .exited _ w => w
  | .completed w => w

def Outcome.exitedWithCode : Outcome → Option Nat
  | .exited c _ => some c
  | .completed _ => none

def Outcome.isCompleted : Outcome → Bool
  | .exited _ _ => false
  | .completed _ => true

def wrapperWarning : String := "Warning: could not write root-wrapper"

/-- `install` (lines 95-154).  A failed download (`download_epm`,
lines 36-43) prints a diagnostic and exits with code 1 before the target
or any rc file is touched.  On success the downloaded text is
header-normalised, made executable and moved to the target; an
unprivileged run then registers the PATH export and attempts the sudo
wrapper, whose failure only logs a warning (lines 137-152). -/
def install (env : InstallEnv) (w : World) : Outcome :=
  match env.download with
  | .httpError code reason =>
    .exited 1 { w with stderrLog := w.stderrLog ++ ["Error: HTTP " ++ toString code ++ " " ++ reason] }
  | .transportError msg =>
    .exited 1 { w with stderrLog := w.stderrLog ++ ["Download failed: " ++ msg] }
  | .ok body =>
    let text := normalizeHeader body
    let w1 : World := { w with target := some (text, make_executable env.tmpMode) }
    if env.isRoot then .completed w1
    else
      let w2 : World := { w1 with rc := ensure_path_in_shell_rc env.binDir env.shell w1.rc }
      let w3 : World :=
        if env.teeOk ∧ env.chmodOk then { w2 with wrapper := true }
        else { w2 with stderrLog := w2.stderrLog ++ [wrapperWarning] }
      .completed w3

/-- Outcome of argument handling in `main` (lines 175-188), after
`argparse` has recognised `--uninstall` and the optional positional
`password`.  A missing (or empty) password reaches
`parser.error(...)`, which prints a usage error and terminates the
process with exit status 2 (the documented `argparse` behaviour). -/
inductive MainAction
  | usageError (exitCode : Nat)
  | runInstall (password : String)
  | runUninstall
deriving DecidableEq, Repr

/-- `main` (lines 175-188): `--uninstall` wins; otherwise a falsy
password (`None` or the empty string) is a usage error, else install
runs with the given password. -/
def mainAction (uninstall : Bool) (password : Option String) : MainAction :=
  if uninstall then .runUninstall
  else
    match password with
    | none => .usageError 2
    | some p => if p = "" then .usageError 2 else .runInstall p

/-! ### Basic facts about the embedded Python string primitives -/

theorem strContains_iff (s pat : String) :
    strContains s pat = true ↔ pat.data <:+: s.data := by
  simp [strContains]

theorem splitlinesL_nil (acc : List Char) (prev : Bool) :
    splitlinesL [] acc prev = if acc.isEmpty then [] else [acc.reverse] := rfl

theorem splitlinesL_cons_false (c : Char) (rest acc : List Char) :
    splitlinesL (c :: rest) acc false =
      if isLineBoundary c then acc.reverse :: splitlinesL rest [] (c == '\r')
      else splitlinesL rest (c :: acc) false := rfl

theorem splitlinesL_cons_nb {c : Char} (h : isLineBoundary c = false)
    (rest acc : List Char) :
    splitlinesL (c :: rest) acc false = splitlinesL rest (c :: acc) false := by
  rw [splitlinesL_cons_false, if_neg (by simp [h])]

theorem splitlinesL_cons_bd {c : Char} (h : isLineBoundary c = true)
    (rest acc : List Char) :
    splitlinesL (c :: rest) acc false =
      acc.reverse :: splitlinesL rest [] (c == '\r') := by
  rw [splitlinesL_cons_false, if_pos h]

theorem splitlinesL_true_nl (rest acc : List Char) :
    splitlinesL ('\n' :: rest) acc true = splitlinesL rest acc false := rfl

theorem splitlinesL_true_not_nl {c : Char} (h : c ≠ '\n') (rest acc : List Char) :
    splitlinesL (c :: rest) acc true = splitlinesL (c :: rest) acc false := by
  have hb : (c == '\n') = false := by simp [h]
  show (if true && (c == '\n') then splitlinesL rest acc false
      else if isLineBoundary c then acc.reverse :: splitlinesL rest [] (c == '\r')
      else splitlinesL rest (c :: acc) false) = _
  rw [hb]
  rfl

theorem splitlinesL_newline (rest acc : List Char) :
    splitlinesL ('\n' :: rest) acc false = acc.reverse :: splitlinesL rest [] false := by
  rw [splitlinesL_cons_bd (by decide)]
  rfl

theorem splitlinesL_false_eq_nil_iff (l acc : List Char) :
    splitlinesL l acc false = [] ↔ l = [] ∧ acc.isEmpty = true := by
  induction l generalizing acc with
  | nil => cases acc <;> simp [splitlinesL_nil]
  | cons c rest ih =>
    by_cases hb : isLineBoundary c = true
    · rw [splitlinesL_cons_bd hb]
      simp
    · rw [splitlinesL_cons_nb (by simpa using hb), ih]
      simp

/-- Splitting distributes over append when the left part ends with a
line feed: the boundary prevents any line from spanning the seam. -/
theorem splitlinesL_append : ∀ (l₁ : List Char), l₁.getLast? = some '\n' →
    ∀ (acc : List Char) (prev : Bool), (prev = true → acc = []) → ∀ l₂,
    splitlinesL (l₁ ++ l₂) acc prev = splitlinesL l₁ acc prev ++ splitlinesL l₂ [] false := by
  intro l₁
  induction l₁ with
  | nil => intro hl; simp at hl
  | cons c rest ih =>
    intro hl acc prev hacc l₂
    by_cases hp : prev = true ∧ c = '\n'
    · obtain ⟨rfl, rfl⟩ := hp
      obtain rfl : acc = [] := hacc rfl
      rw [List.cons_append, splitlinesL_true_nl, splitlinesL_true_nl]
      cases rest with
      | nil => simp [splitlinesL_nil]
      | cons a t =>
        have hl' : (a :: t).getLast? = some '\n' := by
          rw [List.getLast?_cons_cons] at hl
          exact hl
        exact ih hl' [] false (fun _ => rfl) l₂
    · have hred : ∀ (m acc' : List Char), splitlinesL (c :: m) acc' prev = splitlinesL (c :: m) acc' false := by
        intro m acc'
        cases prev with
        | false => rfl
        | true => exact splitlinesL_true_not_nl (fun h => hp ⟨rfl, h⟩) m acc'
      rw [List.cons_append, hred, hred]
      by_cases hb : isLineBoundary c = true
      · rw [splitlinesL_cons_bd hb, splitlinesL_cons_bd hb]
        cases rest with
        | nil =>
          have hcn : c = '\n' := by simpa using hl
          subst hcn
          simp [splitlinesL_nil]
        | cons a t =>
          have hl' : (a :: t).getLast? = some '\n' := by
            rw [List.getLast?_cons_cons] at hl
            exact hl
          rw [ih hl' [] (c == '\r') (fun _ => rfl) l₂, List.cons_append]
      · have hb' : isLineBoundary c = false := by simpa using hb
        rw [splitlinesL_cons_nb hb', splitlinesL_cons_nb hb']
        cases rest with
        | nil =>
          exfalso
          have hcn : c = '\n' := by simpa using hl
          subst hcn
          exact absurd hb' (by decide)
        | cons a t =>
          have hl' : (a :: t).getLast? = some '\n' := by
            rw [List.getLast?_cons_cons] at hl
            exact hl
          exact ih hl' (c :: acc) false (by simp) l₂

/-- A line-feed-terminated segment free of boundary characters splits as
a single line. -/
theorem splitlinesL_clean_concat (l : List Char)
    (h : ∀ c ∈ l, isLineBoundary c = false) (acc : List Char) :
    splitlinesL (l ++ ['\n']) acc false = [acc.reverse ++ l] := by
  induction l generalizing acc with
  | nil => simp [splitlinesL_newline, splitlinesL_nil]
  | cons c rest ih =>
    have hc : isLineBoundary c = false := h c (by simp)
    rw [List.cons_append, splitlinesL_cons_nb hc,
      ih (fun d hd => h d (by simp [hd])) (c :: acc)]
    simp

/-- Every line produced by the splitter is an infix of the input
(prepended with the pending accumulator). -/
theorem mem_splitlinesL_substring : ∀ (l acc : List Char) (prev : Bool),
    (prev = true → acc = []) →
    ∀ L ∈ splitlinesL l acc prev, L <:+: acc.reverse ++ l := by
  intro l
  induction l with
  | nil =>
    intro acc prev hacc L hL
    rw [splitlinesL_nil] at hL
    by_cases h : acc.isEmpty = true
    · rw [if_pos h] at hL
      simp at hL
    · rw [if_neg h] at hL
      simp only [List.mem_singleton] at hL
      subst hL
      exact (List.prefix_append acc.reverse []).isInfix
  | cons c rest ih =>
    intro acc prev hacc L hL
    by_cases hp : prev = true ∧ c = '\n'
    · obtain ⟨rfl, rfl⟩ := hp
      obtain rfl : acc = [] := hacc rfl
      rw [splitlinesL_true_nl] at hL
      have h2 := ih [] false (fun _ => rfl) L hL
      simp only [List.reverse_nil, List.nil_append] at h2 ⊢
      exact h2.trans (List.suffix_cons '\n' rest).isInfix
    · have hred : splitlinesL (c :: rest) acc prev = splitlinesL (c :: rest) acc false := by
        cases prev with
        | false => rfl
        | true => exact splitlinesL_true_not_nl (fun h => hp ⟨rfl, h⟩) rest acc
      rw [hred] at hL
      by_cases hb : isLineBoundary c = true
      · rw [splitlinesL_cons_bd hb] at hL
        rcases List.mem_cons.mp hL with rfl | hmem
        · exact (List.prefix_append acc.reverse _).isInfix
        · have h2 := ih [] (c == '\r') (fun _ => rfl) L hmem
          simp only [List.reverse_nil, List.nil_append] at h2
          exact h2.trans ((List.suffix_cons c rest).trans
            (List.suffix_append acc.reverse _)).isInfix
      · rw [splitlinesL_cons_nb (by simpa using hb)] at hL
        have h2 := ih (c :: acc) false (by simp) L hL
        rw [List.reverse_cons, List.append_assoc] at h2
        simpa using h2

/-- Removing a final element not occurring in the pattern preserves
substring status. -/
theorem substring_of_concat_free {l₁ l₂ : List Char} {c : Char}
    (h : l₁ <:+: l₂ ++ [c]) (hc : c ∉ l₁) : l₁ <:+: l₂ := by
  obtain ⟨s, t, hst⟩ := h
  rcases List.eq_nil_or_concat t with rfl | ⟨t', c', rfl⟩
  · rcases List.eq_nil_or_concat l₁ with rfl | ⟨l', b, rfl⟩
    · exact List.nil_infix
    · exfalso
      rw [List.append_nil, List.concat_eq_append, ← List.append_assoc] at hst
      have hb : b = c := by
        have := congrArg List.getLast? hst
        simpa using this
      subst hb
      exact hc (by simp)
  · have hst' : (s ++ l₁ ++ t') ++ [c'] = l₂ ++ [c] := by
      rw [List.concat_eq_append] at hst
      rw [← hst]
      simp [List.append_assoc]
    have h2 : s ++ l₁ ++ t' = l₂ := by
      have := congrArg List.dropLast hst'
      simpa [List.dropLast_concat] using this
    exact ⟨s, t', h2⟩

/-- The stripped form of a list is one of its infixes. -/
theorem stripL_substring (l : List Char) : stripL l <:+: l := by
  unfold stripL
  have h1 : l.dropWhile isPySpace <:+ l := List.dropWhile_suffix _
  have h2 : (l.dropWhile isPySpace).reverse.dropWhile isPySpace <:+
      (l.dropWhile isPySpace).reverse := List.dropWhile_suffix _
  have h3 : ((l.dropWhile isPySpace).reverse.dropWhile isPySpace).reverse <+:
      l.dropWhile isPySpace := by
    rw [← List.reverse_suffix]
    simpa using h2
  exact h3.isInfix.trans h1.isInfix

/-- A list whose first and last characters are not whitespace is left
unchanged by stripping. -/
theorem stripL_eq_self {l : List Char}
    (h1 : ∀ c, l.head? = some c → isPySpace c = false)
    (h2 : ∀ c, l.getLast? = some c → isPySpace c = false) :
    stripL l = l := by
  unfold stripL
  have e1 : l.dropWhile isPySpace = l := by
    cases l with
    | nil => rfl
    | cons c rest =>
      rw [List.dropWhile_cons, if_neg]
      simp [h1 c rfl]
  rw [e1]
  have e2 : l.reverse.dropWhile isPySpace = l.reverse := by
    cases hr : l.reverse with
    | nil => rfl
    | cons c rest =>
      rw [List.dropWhile_cons, if_neg]
      have : l.getLast? = some c := by
        rw [← List.head?_reverse, hr, List.head?_cons]
      simp [h2 c this]
  rw [e2, List.reverse_reverse]

theorem exportLine_data (bin : String) :
    (exportLine bin).data = "export PATH=\"".data ++ bin.data ++ ":$PATH\"".data := by
  simp [exportLine, String.data_append]

/-- The export line never starts or ends with whitespace, so stripping a
line equal to it is the identity. -/
theorem pyStrip_exportLine (bin : String) : pyStrip (exportLine bin) = exportLine bin := by
  apply String.ext
  show stripL (exportLine bin).data = (exportLine bin).data
  apply stripL_eq_self
  · intro c hc
    have h2 : (exportLine bin).data.head? = some 'e' := by
      rw [exportLine_data, List.append_assoc, List.head?_append]
      rfl
    rw [h2] at hc
    simp only [Option.some.injEq] at hc
    subst hc
    decide
  · intro c hc
    have h2 : (exportLine bin).data.getLast? = some '"' := by
      rw [exportLine_data, List.getLast?_append]
      rfl
    rw [h2] at hc
    simp only [Option.some.injEq] at hc
    subst hc
    decide

theorem pyStrip_EXPORT_MARK : pyStrip EXPORT_MARK = EXPORT_MARK := by decide

theorem exportLine_ne_EXPORT_MARK (bin : String) : exportLine bin ≠ EXPORT_MARK := by
  intro h
  have h2 : (exportLine bin).data.head? = EXPORT_MARK.data.head? := by rw [h]
  have h3 : (exportLine bin).data.head? = some 'e' := by
    rw [exportLine_data, List.append_assoc, List.head?_append]
    rfl
  rw [h3] at h2
  have h4 : EXPORT_MARK.data.head? = some '#' := by decide
  rw [h4] at h2
  simp at h2

/-- No character of the export line is a line boundary, as long as the
target directory path itself contains none. -/
theorem exportLine_no_boundary {bin : String}
    (hb : ∀ c ∈ bin.data, isLineBoundary c = false) :
    ∀ c ∈ (exportLine bin).data, isLineBoundary c = false := by
  intro c hc
  rw [exportLine_data] at hc
  have hpre : ∀ c ∈ "export PATH=\"".data, isLineBoundary c = false := by decide
  have hsuf : ∀ c ∈ ":$PATH\"".data, isLineBoundary c = false := by decide
  rcases List.mem_append.mp hc with hc' | hc'
  · rcases List.mem_append.mp hc' with hc'' | hc''
    · exact hpre c hc''
    · exact hb c hc''
  · exact hsuf c hc'

theorem EXPORT_MARK_no_boundary :
    ∀ c ∈ EXPORT_MARK.data, isLineBoundary c = false := by decide

/-! ### Facts about the removal scan -/

/-- Lines that do not strip to the sentinel pass through the scan
untouched while the skip flag is off. -/
theorem removeLines_append_clean (bin : String) (L M : List String)
    (h : ∀ l ∈ L, pyStrip l ≠ EXPORT_MARK) :
    removeLines bin (L ++ M) false = L ++ removeLines bin M false := by
  induction L with
  | nil => rfl
  | cons l rest ih =>
    rw [List.cons_append, removeLines, if_neg (h l (by simp)), if_neg (by simp)]
    rw [ih (fun x hx => h x (by simp [hx])), List.cons_append]

theorem removeLines_eq_self (bin : String) (L : List String)
    (h : ∀ l ∈ L, pyStrip l ≠ EXPORT_MARK) :
    removeLines bin L false = L := by
  have h0 : removeLines bin [] false = [] := rfl
  have := removeLines_append_clean bin L [] h
  simpa [h0] using this

/-! ### Joining the split lines back together -/

/-- Drop a single trailing line feed, if present: the difference between
a text and `"\n".join(text.splitlines())` when the text uses only `\n`
line terminators. -/
def dropTrailNL (l : List Char) : List Char :=
  if l.getLast? = some '\n' then l.dropLast else l

theorem dropTrailNL_cons {c : Char} {rest : List Char}
    (h : rest ≠ [] ∨ c ≠ '\n') :
    dropTrailNL (c :: rest) = c :: dropTrailNL rest := by
  cases rest with
  | nil =>
    have hc : c ≠ '\n' := by
      rcases h with h | h
      · exact absurd rfl h
      · exact h
    simp [dropTrailNL, hc]
  | cons a t =>
    unfold dropTrailNL
    rw [List.getLast?_cons_cons]
    by_cases hl : (a :: t).getLast? = some '\n'
    · rw [if_pos hl, if_pos hl, List.dropLast_cons_of_ne_nil (by simp)]
    · rw [if_neg hl, if_neg hl]

theorem pyJoinNL_cons₂ (l l2 : String) (ls : List String) :
    pyJoinNL (l :: l2 :: ls) = l ++ "\n" ++ pyJoinNL (l2 :: ls) := rfl

theorem mk_append_mk (a b : List Char) :
    String.mk a ++ String.mk b = String.mk (a ++ b) := rfl

/-- Joining the split lines of a text whose only line boundaries are
line feeds reproduces the text minus one trailing line feed. -/
theorem joinNL_splitlinesL : ∀ (l : List Char),
    (∀ c ∈ l, isLineBoundary c = true → c = '\n') → ∀ acc : List Char,
    pyJoinNL ((splitlinesL l acc false).map String.mk) =
      String.mk (acc.reverse ++ dropTrailNL l) := by
  intro l
  induction l with
  | nil =>
    intro h acc
    rw [splitlinesL_nil]
    by_cases ha : acc.isEmpty = true
    · rw [if_pos ha]
      obtain rfl : acc = [] := by simpa using ha
      rfl
    · rw [if_neg ha]
      show String.mk acc.reverse = String.mk (acc.reverse ++ dropTrailNL [])
      simp [dropTrailNL]
  | cons c rest ih =>
    intro h acc
    by_cases hb : isLineBoundary c = true
    · obtain rfl : c = '\n' := h c (by simp) hb
      rw [splitlinesL_newline, List.map_cons]
      rcases hrest : splitlinesL rest [] false with _ | ⟨y, ys⟩
      · obtain ⟨rfl, -⟩ := (splitlinesL_false_eq_nil_iff rest []).mp hrest
        show String.mk acc.reverse = String.mk (acc.reverse ++ dropTrailNL ['\n'])
        simp [dropTrailNL]
      · rw [List.map_cons, pyJoinNL_cons₂, ← List.map_cons, ← hrest,
          ih (fun d hd hbd => h d (by simp [hd]) hbd) []]
        show String.mk acc.reverse ++ String.mk ['\n'] ++ _ = _
        rw [mk_append_mk, mk_append_mk]
        have hr : rest ≠ [] := by
          intro hr
          rw [hr] at hrest
          simp [splitlinesL_nil] at hrest
        rw [dropTrailNL_cons (Or.inl hr)]
        simp
    · have hb' : isLineBoundary c = false := by simpa using hb
      rw [splitlinesL_cons_nb hb',
        ih (fun d hd hbd => h d (by simp [hd]) hbd) (c :: acc)]
      have hc : c ≠ '\n' := by
        intro hc
        subst hc
        exact absurd hb' (by decide)
      rw [dropTrailNL_cons (Or.inr hc)]
      simp

/-- String-level splitter facts. -/
theorem pySplitlines_append_terminated (s t : String)
    (h : s.data.getLast? = some '\n') :
    pySplitlines (s ++ t) = pySplitlines s ++ pySplitlines t := by
  unfold pySplitlines
  rw [String.data_append, splitlinesL_append s.data h [] false (fun hx => rfl) t.data,
    List.map_append]

theorem pySplitlines_line_concat (s : String)
    (h : ∀ c ∈ s.data, isLineBoundary c = false) :
    pySplitlines (s ++ "\n") = [s] := by
  unfold pySplitlines
  rw [String.data_append]
  show (splitlinesL (s.data ++ ['\n']) [] false).map String.mk = [s]
  rw [splitlinesL_clean_concat s.data h []]
  simp

theorem data_concat_newline (s : String) :
    (s ++ "\n").data = s.data ++ ['\n'] := by
  rw [String.data_append]

theorem getLast_data_concat_newline (s : String) :
    (s ++ "\n").data.getLast? = some '\n' := by
  rw [data_concat_newline]
  exact List.getLast?_concat _

/-- Every line of the split of a text occurs in it as a substring. -/
theorem mem_pySplitlines_substring {X l : String} (hl : l ∈ pySplitlines X) :
    l.data <:+: X.data := by
  unfold pySplitlines at hl
  obtain ⟨ld, hld, rfl⟩ := List.mem_map.mp hl
  have := mem_splitlinesL_substring X.data [] false (fun hx => rfl) ld hld
  simpa using this

/-- A line of the split of `content` cannot strip to a string that does
not occur in `content` as a substring. -/
theorem pyStrip_mem_ne_of_not_contains {content pat : String}
    (hnc : strContains content pat = false) :
    ∀ l ∈ pySplitlines content, pyStrip l ≠ pat := by
  intro l hl heq
  unfold pySplitlines at hl
  obtain ⟨ld, hld, rfl⟩ := List.mem_map.mp hl
  have hinf : ld <:+: content.data := by
    have := mem_splitlinesL_substring content.data [] false (fun hx => rfl) ld hld
    simpa using this
  have hstrip : stripL ld = pat.data := congrArg String.data heq
  have : pat.data <:+: content.data := by
    rw [← hstrip]
    exact (stripL_substring ld).trans hinf
  rw [← strContains_iff content pat] at this
  rw [hnc] at this
  exact Bool.false_ne_true this

/-- The same, for the split of `content ++ "\n"`, provided the pattern
contains no line feed. -/
theorem pyStrip_mem_concat_ne_of_not_contains {content pat : String}
    (hnc : strContains content pat = false) (hnl : '\n' ∉ pat.data) :
    ∀ l ∈ pySplitlines (content ++ "\n"), pyStrip l ≠ pat := by
  intro l hl heq
  unfold pySplitlines at hl
  obtain ⟨ld, hld, rfl⟩ := List.mem_map.mp hl
  have hinf : ld <:+: content.data ++ ['\n'] := by
    have := mem_splitlinesL_substring (content ++ "\n").data [] false (fun hx => rfl) ld hld
    rw [data_concat_newline] at this
    simpa using this
  have hstrip : stripL ld = pat.data := congrArg String.data heq
  have h1 : pat.data <:+: content.data ++ ['\n'] := by
    rw [← hstrip]
    exact (stripL_substring ld).trans hinf
  have h2 : pat.data <:+: content.data := substring_of_concat_free h1 hnl
  rw [← strContains_iff content pat] at h2
  rw [hnc] at h2
  exact Bool.false_ne_true h2

/-! ### Claim C1 -/

/-- Counterexample to claim C1: invoked in install mode without a
password, `main` reaches `parser.error`, which terminates the process
with exit status 2, not 1 as the claim states. -/
theorem C1_counterexample :
    mainAction false none = MainAction.usageError 2 ∧
    MainAction.usageError 2 ≠ MainAction.usageError 1 := by
  decide

/-- Claim C1, amended: an invocation without `--uninstall` and with a
missing (or empty, which Python treats as falsy) password terminates
with exit code 2 after printing a usage error. -/
theorem C1_missing_password_usage_error (password : Option String)
    (h : password = none ∨ password = some "") :
    mainAction false password = MainAction.usageError 2 := by
  rcases h with rfl | rfl <;> simp [mainAction]

theorem C1_missing_password_usage_error_witness :
    mainAction false none = MainAction.usageError 2 :=
  C1_missing_password_usage_error none (Or.inl rfl)

/-! ### Claim C2 -/

/-- Modelled from the spec words of claim C2: the shell-to-rc-file
mapping the claim asserts, keyed on *containing* "zsh" / "bash" rather
than the source's `endswith` tests. -/
def claimRcFileFor (shell : String) : Option RcKind :=
  if strContains shell "zsh" then some .zshrc
  else if strContains shell "bash" then some .bashrc
  else none

/-- Counterexample to claim C2: the value "zsh5" contains "zsh", so the
claim requires rc edits to target `.zshrc`; but the source tests
`endswith`, selects no rc file at all, and neither registration nor
removal touches any rc state. -/
theorem C2_counterexample :
    strContains "zsh5" "zsh" = true ∧
    claimRcFileFor "zsh5" = some RcKind.zshrc ∧
    rcFileFor "zsh5" = none ∧
    ensure_path_in_shell_rc "B" "zsh5" ⟨none, none⟩ = ⟨none, none⟩ ∧
    remove_path_from_shell_rc "B" "zsh5" ⟨none, none⟩ = ⟨none, none⟩ := by
  decide

/-- Per-file edit made by the PATH registration, for stating which rc
file is touched. -/
def ensureRcOpt (bin : String) (c : Option String) : Option String :=
  if strContains (c.getD "") (exportLine bin) then c
  else some ((c.getD "") ++ "\n" ++ EXPORT_MARK ++ "\n" ++ exportLine bin ++ "\n")

/-- Per-file edit made by the PATH removal, for stating which rc file is
touched. -/
def removeRcOpt (bin : String) (c : Option String) : Option String :=
  match c with
  | none => none
  | some content => some (removeFileContent bin content)

/-- Claim C2, amended: the rc file is selected by `endswith`, not by
substring: a shell value ending in "bash" makes both the registration
and the removal edit `.bashrc` only; otherwise one ending in "zsh"
makes them edit `.zshrc` only; otherwise no rc file is read or
written. -/
theorem C2_rc_file_selection (bin shell : String) (st : RcState) :
    (pyEndsWith shell "bash" = true →
      (ensure_path_in_shell_rc bin shell st).zshrc = st.zshrc ∧
      (remove_path_from_shell_rc bin shell st).zshrc = st.zshrc ∧
      (ensure_path_in_shell_rc bin shell st).bashrc = ensureRcOpt bin st.bashrc ∧
      (remove_path_from_shell_rc bin shell st).bashrc = removeRcOpt bin st.bashrc) ∧
    (pyEndsWith shell "bash" = false → pyEndsWith shell "zsh" = true →
      (ensure_path_in_shell_rc bin shell st).bashrc = st.bashrc ∧
      (remove_path_from_shell_rc bin shell st).bashrc = st.bashrc ∧
      (ensure_path_in_shell_rc bin shell st).zshrc = ensureRcOpt bin st.zshrc ∧
      (remove_path_from_shell_rc bin shell st).zshrc = removeRcOpt bin st.zshrc) ∧
    (pyEndsWith shell "bash" = false → pyEndsWith shell "zsh" = false →
      ensure_path_in_shell_rc bin shell st = st ∧
      remove_path_from_shell_rc bin shell st = st) := by
  refine ⟨fun hb => ?_, fun hb hz => ?_, fun hb hz => ?_⟩
  · unfold ensure_path_in_shell_rc remove_path_from_shell_rc rcFileFor
    rw [hb]
    cases hc : st.bashrc with
    | none =>
      simp only [RcState.get, hc, Option.getD_none, Option.getD_some]
      by_cases he : strContains "" (exportLine bin) = true
      · simp [he, ensureRcOpt, removeRcOpt, hc]
      · simp [he, ensureRcOpt, removeRcOpt, hc, RcState.set]
    | some content =>
      simp only [RcState.get, hc, Option.getD_some]
      by_cases he : strContains content (exportLine bin) = true
      · simp [he, ensureRcOpt, removeRcOpt, hc, RcState.set]
      · simp [he, ensureRcOpt, removeRcOpt, hc, RcState.set]
  · unfold ensure_path_in_shell_rc remove_path_from_shell_rc rcFileFor
    rw [hb, hz]
    cases hc : st.zshrc with
    | none =>
      simp only [RcState.get, hc, Option.getD_none, Option.getD_some]
      by_cases he : strContains "" (exportLine bin) = true
      · simp [he, ensureRcOpt, removeRcOpt, hc]
      · simp [he, ensureRcOpt, removeRcOpt, hc, RcState.set]
    | some content =>
      simp only [RcState.get, hc, Option.getD_some]
      by_cases he : strContains content (exportLine bin) = true
      · simp [he, ensureRcOpt, removeRcOpt, hc, RcState.set]
      · simp [he, ensureRcOpt, removeRcOpt, hc, RcState.set]
  · unfold ensure_path_in_shell_rc remove_path_from_shell_rc rcFileFor
    rw [hb, hz]
    simp

theorem C2_rc_file_selection_witness :
    (ensure_path_in_shell_rc "B" "/bin/bash" ⟨some "x", some "y"⟩).zshrc = some "y" ∧
    (ensure_path_in_shell_rc "B" "/bin/zsh" ⟨some "x", some "y"⟩).bashrc = some "x" ∧
    ensure_path_in_shell_rc "B" "fish" ⟨some "x", some "y"⟩ = ⟨some "x", some "y"⟩ := by
  refine ⟨((C2_rc_file_selection "B" "/bin/bash" _).1 (by decide)).1,
    (((C2_rc_file_selection "B" "/bin/zsh" _).2.1 (by decide) (by decide)).1),
    (((C2_rc_file_selection "B" "fish" _).2.2 (by decide) (by decide)).1)⟩

/-! ### Claim C6 -/

/-- Claim C6: a failed download (HTTP error or transport exception)
exits with code 1 having printed a diagnostic, and at that point the
target artifact and the rc files are untouched. -/
theorem C6_download_failure_clean_exit (env : InstallEnv) (w : World)
    (h : env.download.isFailure = true) :
    (install env w).exitedWithCode = some 1 ∧
    (install env w).world.target = w.target ∧
    (install env w).world.rc = w.rc ∧
    (install env w).world.stderrLog.length = w.stderrLog.length + 1 := by
  cases hd : env.download with
  | ok body =>
    rw [hd] at h
    simp [DownloadResult.isFailure] at h
  | httpError code reason =>
    simp [install, hd, Outcome.exitedWithCode, Outcome.world]
  | transportError msg =>
    simp [install, hd, Outcome.exitedWithCode, Outcome.world]

theorem C6_download_failure_clean_exit_witness :
    (install ⟨false, "/bin/bash", "B", 420, DownloadResult.httpError 403 "Forbidden", true, true⟩
      ⟨none, ⟨none, none⟩, false, []⟩).exitedWithCode = some 1 ∧
    (install ⟨false, "/bin/bash", "B", 420, DownloadResult.httpError 403 "Forbidden", true, true⟩
      ⟨none, ⟨none, none⟩, false, []⟩).world.target = none :=
  ⟨(C6_download_failure_clean_exit _ _ (by decide)).1,
    (C6_download_failure_clean_exit _ _ (by decide)).2.1⟩

/-! ### Claim C7 -/

/-- Claim C7: header normalisation leaves text that already starts with
the interpreter directive unchanged, always produces text starting with
the directive, and is idempotent. -/
theorem C7_normalize_header (text : String) :
    (pyStartsWith text "#!" = true → normalizeHeader text = text) ∧
    pyStartsWith (normalizeHeader text) "#!" = true ∧
    normalizeHeader (normalizeHeader text) = normalizeHeader text := by
  have hs : ∀ t : String, pyStartsWith (SHEBANG ++ t) "#!" = true := by
    intro t
    unfold pyStartsWith
    rw [decide_eq_true_eq]
    rw [String.data_append]
    exact ⟨"/usr/bin/env python3\n".data ++ t.data, rfl⟩
  refine ⟨fun h => by simp [normalizeHeader, h], ?_, ?_⟩
  · by_cases h : pyStartsWith text "#!" = true
    · simp [normalizeHeader, h]
    · simp [normalizeHeader, h, hs text]
  · by_cases h : pyStartsWith text "#!" = true
    · simp [normalizeHeader, h]
    · simp [normalizeHeader, h, hs text]

theorem C7_normalize_header_witness :
    normalizeHeader "#!x" = "#!x" ∧
    pyStartsWith (normalizeHeader "print(1)") "#!" = true :=
  ⟨(C7_normalize_header "#!x").1 (by decide), (C7_normalize_header "print(1)").2.1⟩

/-! ### Claim C8 -/

/-- Claim C8: in an unprivileged install with a successful download, a
failure of either sudo step of the wrapper write (the tee or the chmod)
only appends a warning to stderr; the install still runs to completion
with the artifact in place. -/
theorem C8_wrapper_failure_nonfatal (env : InstallEnv) (w : World) (body : String)
    (hd : env.download = .ok body) (hroot : env.isRoot = false)
    (hfail : env.teeOk = false ∨ env.chmodOk = false) :
    (install env w).isCompleted = true ∧
    (install env w).world.stderrLog = w.stderrLog ++ [wrapperWarning] ∧
    (install env w).world.target = some (normalizeHeader body, make_executable env.tmpMode) := by
  have hcond : ¬(env.teeOk = true ∧ env.chmodOk = true) := by
    rcases hfail with h | h <;> simp [h]
  simp [install, hd, hroot, hcond, Outcome.isCompleted, Outcome.world,
    ensure_path_in_shell_rc]

theorem C8_wrapper_failure_nonfatal_witness :
    (install ⟨false, "fish", "B", 420, DownloadResult.ok "#!x", false, true⟩
      ⟨none, ⟨none, none⟩, false, []⟩).isCompleted = true :=
  (C8_wrapper_failure_nonfatal _ _ "#!x" rfl rfl (Or.inl rfl)).1

/-! ### Claim C9 -/

/-- Claim C9: after a successful install the artifact at the target
exists and its mode is the temporary file's mode with exactly the
owner, group and other execute bits added: those three bits are set,
every other bit is unchanged, and every previously set bit stays
set. -/
theorem C9_executable_bits (env : InstallEnv) (w : World) (body : String)
    (hd : env.download = .ok body) :
    (install env w).isCompleted = true ∧
    (install env w).world.targetMode = some (make_executable env.tmpMode) ∧
    (∀ m : Nat, (make_executable m).testBit 0 = true ∧
      (make_executable m).testBit 3 = true ∧ (make_executable m).testBit 6 = true) ∧
    (∀ m i, i ≠ 0 → i ≠ 3 → i ≠ 6 → (make_executable m).testBit i = m.testBit i) ∧
    (∀ m i, m.testBit i = true → (make_executable m).testBit i = true) := by
  have e1 : (1 : Nat) = 2 ^ 0 := rfl
  have e8 : (8 : Nat) = 2 ^ 3 := rfl
  have e64 : (64 : Nat) = 2 ^ 6 := rfl
  have hbit : ∀ m i, (make_executable m).testBit i =
      (m.testBit i || Nat.testBit 64 i || Nat.testBit 8 i || Nat.testBit 1 i) := by
    intro m i
    unfold make_executable S_IXUSR S_IXGRP S_IXOTH
    rw [Nat.testBit_or, Nat.testBit_or, Nat.testBit_or]
  refine ⟨?_, ?_, ?_, ?_, ?_⟩
  · cases hroot : env.isRoot <;>
      by_cases hw : env.teeOk = true ∧ env.chmodOk = true <;>
      simp [install, hd, hroot, hw, Outcome.isCompleted]
  · cases hroot : env.isRoot <;>
      by_cases hw : env.teeOk = true ∧ env.chmodOk = true <;>
      simp [install, hd, hroot, hw, Outcome.world, World.targetMode]
  · intro m
    have b0 : Nat.testBit 1 0 = true := by decide
    have b3 : Nat.testBit 8 3 = true := by decide
    have b6 : Nat.testBit 64 6 = true := by decide
    refine ⟨?_, ?_, ?_⟩ <;> rw [hbit] <;> simp [b0, b3, b6]
  · intro m i h0 h3 h6
    rw [hbit]
    rw [e1, e8, e64, Nat.testBit_two_pow, Nat.testBit_two_pow, Nat.testBit_two_pow]
    simp [Ne.symm h0, Ne.symm h3, Ne.symm h6]
  · intro m i h
    rw [hbit, h]
    simp

theorem C9_executable_bits_witness :
    (install ⟨true, "", "B", 420, DownloadResult.ok "#!x", true, true⟩
      ⟨none, ⟨none, none⟩, false, []⟩).world.targetMode = some 493 :=
  (C9_executable_bits ⟨true, "", "B", 420, DownloadResult.ok "#!x", true, true⟩
    ⟨none, ⟨none, none⟩, false, []⟩ "#!x" rfl).2.1

/-! ### Claim C3 -/

/-- Counterexample to claim C3: in the content whose lines are the
sentinel, an unrelated line "u", and the export line, the export line
does not immediately follow the sentinel, yet the scan still removes
it (the skip flag persists across the middle line), leaving only
"u". Under the claim the export line would have been preserved. -/
theorem C3_counterexample :
    pySplitlines (EXPORT_MARK ++ "\nu\n" ++ exportLine "B") =
      [EXPORT_MARK, "u", exportLine "B"] ∧
    removeFileContent "B" (EXPORT_MARK ++ "\nu\n" ++ exportLine "B") = "u" := by
  decide

/-- Claim C3, amended: the scan never reorders or invents lines (the
output is a subsequence of the input), every line stripping to the
sentinel is dropped, and every line stripping to neither the sentinel
nor the export line — in particular any user PATH customisation other
than the exact export line — is preserved in order and multiplicity.
After a sentinel, the dropped matching export line is the *next* one,
not necessarily the immediately following line. -/
theorem C3_remove_scan (bin : String) (lines : List String) (skip : Bool) :
    (removeLines bin lines skip).Sublist lines ∧
    (removeLines bin lines skip).countP (fun l => pyStrip l == EXPORT_MARK) = 0 ∧
    (removeLines bin lines skip).filter
        (fun l => !(pyStrip l == EXPORT_MARK) && !(pyStrip l == exportLine bin)) =
      lines.filter
        (fun l => !(pyStrip l == EXPORT_MARK) && !(pyStrip l == exportLine bin)) := by
  induction lines generalizing skip with
  | nil => simp [removeLines]
  | cons l rest ih =>
    by_cases h1 : pyStrip l = EXPORT_MARK
    · rw [removeLines, if_pos h1]
      refine ⟨((ih true).1).cons l, (ih true).2.1, ?_⟩
      rw [(ih true).2.2, List.filter_cons, if_neg (by simp [h1])]
    · by_cases h2 : skip = true ∧ pyStrip l = exportLine bin
      · rw [removeLines, if_neg h1, if_pos h2]
        refine ⟨((ih false).1).cons l, (ih false).2.1, ?_⟩
        rw [(ih false).2.2, List.filter_cons, if_neg (by simp [h2.2])]
      · rw [removeLines, if_neg h1, if_neg h2]
        refine ⟨((ih skip).1).cons₂ l, ?_, ?_⟩
        · rw [List.countP_cons, (ih skip).2.1, if_neg (by simp [h1])]
        · rw [List.filter_cons, List.filter_cons]
          by_cases hp : (!(pyStrip l == EXPORT_MARK) && !(pyStrip l == exportLine bin)) = true
          · rw [if_pos hp, if_pos hp, (ih skip).2.2]
          · rw [if_neg hp, if_neg hp, (ih skip).2.2]

/-! ### Claim C4 -/

/-- Counterexample to claim C4: the content "hello\n" contains neither
the sentinel nor the export line, yet the cleanup rewrites it to
"hello" — `"\n".join(content.splitlines())` drops the trailing
newline, so the file content is not left unchanged. -/
theorem C4_counterexample :
    strContains "hello\n" EXPORT_MARK = false ∧
    strContains "hello\n" (exportLine "B") = false ∧
    removeFileContent "B" "hello\n" = "hello" ∧
    ("hello" : String) ≠ "hello\n" := by
  decide

/-- Claim C4, amended: on content containing neither the sentinel nor
the export line the cleanup keeps every line, and the rewritten content
is the original lines re-joined with line feeds — i.e. the original
content except that one trailing line terminator is dropped and line
terminators are normalised; it is exactly the original whenever the
content has no trailing line terminator and uses only line feeds. -/
theorem C4_remove_absent_pair (bin content : String)
    (hm : strContains content EXPORT_MARK = false)
    (he : strContains content (exportLine bin) = false) :
    removeLines bin (pySplitlines content) false = pySplitlines content ∧
    removeFileContent bin content = pyJoinNL (pySplitlines content) ∧
    ((∀ c ∈ content.data, isLineBoundary c = true → c = '\n') →
      content.data.getLast? ≠ some '\n' →
      removeFileContent bin content = content) := by
  have h1 : ∀ l ∈ pySplitlines content, pyStrip l ≠ EXPORT_MARK :=
    pyStrip_mem_ne_of_not_contains hm
  have h2 := removeLines_eq_self bin (pySplitlines content) h1
  refine ⟨h2, by rw [removeFileContent, h2], fun h3 h4 => ?_⟩
  rw [removeFileContent, h2]
  show pyJoinNL ((splitlinesL content.data [] false).map String.mk) = content
  rw [joinNL_splitlinesL content.data h3 []]
  show String.mk (dropTrailNL content.data) = content
  rw [dropTrailNL, if_neg h4]

theorem C4_remove_absent_pair_witness :
    removeFileContent "B" "hello\nworld" = "hello\nworld" :=
  (C4_remove_absent_pair "B" "hello\nworld" (by decide) (by decide)).2.2
    (by decide) (by decide)

/-! ### Shared shape of the appended marker block -/

theorem ensureFileContent_absent (bin content : String)
    (he : strContains content (exportLine bin) = false) :
    ensureFileContent bin content =
      content ++ "\n" ++ EXPORT_MARK ++ "\n" ++ exportLine bin ++ "\n" := by
  rw [ensureFileContent, if_neg (by simp [he])]

/-- After an append, the lines are the lines of the newline-terminated
original content followed by the sentinel and the export line. -/
theorem pySplitlines_ensure (bin content : String)
    (hb : ∀ c ∈ bin.data, isLineBoundary c = false)
    (he : strContains content (exportLine bin) = false) :
    pySplitlines (ensureFileContent bin content) =
      pySplitlines (content ++ "\n") ++ [EXPORT_MARK, exportLine bin] := by
  rw [ensureFileContent_absent bin content he]
  have hre : content ++ "\n" ++ EXPORT_MARK ++ "\n" ++ exportLine bin ++ "\n" =
      (content ++ "\n") ++ ((EXPORT_MARK ++ "\n") ++ (exportLine bin ++ "\n")) := by
    simp [String.append_assoc]
  rw [hre, pySplitlines_append_terminated _ _ (getLast_data_concat_newline content),
    pySplitlines_append_terminated _ _ (getLast_data_concat_newline EXPORT_MARK),
    pySplitlines_line_concat EXPORT_MARK EXPORT_MARK_no_boundary,
    pySplitlines_line_concat (exportLine bin) (exportLine_no_boundary hb)]
  rfl

/-- The export line survives into the appended content as a substring,
so a second registration is a no-op. -/
theorem strContains_ensure (bin content : String)
    (he : strContains content (exportLine bin) = false) :
    strContains (ensureFileContent bin content) (exportLine bin) = true := by
  rw [ensureFileContent_absent bin content he, strContains_iff]
  rw [String.data_append, String.data_append]
  show (exportLine bin).data <:+:
    (content ++ "\n" ++ EXPORT_MARK ++ "\n").data ++ (exportLine bin).data ++ ['\n']
  exact List.infix_append _ _ _

/-! ### Claim C5 -/

/-- Counterexample to claim C5: if the rc content already consists of
the bare export line (say added by the user), the substring check makes
both installs no-ops, so after running install twice there is no
occurrence of the marker comment at all — not exactly one as the claim
states for every rc file. -/
theorem C5_counterexample :
    ensureFileContent "B" (ensureFileContent "B" (exportLine "B")) = exportLine "B" ∧
    (pySplitlines (ensureFileContent "B" (ensureFileContent "B" (exportLine "B")))).countP
      (fun l => l == EXPORT_MARK) = 0 := by
  decide

/-- Claim C5, amended: the registration appends the blank line, the
sentinel and the export line only when the export line is not already a
substring of the content; consequently, when the rc content initially
contains neither the export line nor the marker comment, two runs
produce a content with exactly one line equal to the export line and
exactly one equal to the marker comment. -/
theorem C5_registration_idempotent (bin content : String)
    (hb : ∀ c ∈ bin.data, isLineBoundary c = false)
    (he : strContains content (exportLine bin) = false)
    (hm : strContains content EXPORT_MARK = false) :
    (∀ c : String, strContains c (exportLine bin) = true →
      ensureFileContent bin c = c) ∧
    ensureFileContent bin (ensureFileContent bin content) =
      ensureFileContent bin content ∧
    (pySplitlines (ensureFileContent bin (ensureFileContent bin content))).countP
      (fun l => l == exportLine bin) = 1 ∧
    (pySplitlines (ensureFileContent bin (ensureFileContent bin content))).countP
      (fun l => l == EXPORT_MARK) = 1 := by
  have hpresent : ∀ c : String, strContains c (exportLine bin) = true →
      ensureFileContent bin c = c := by
    intro c hc
    rw [ensureFileContent, if_pos hc]
  have hidem : ensureFileContent bin (ensureFileContent bin content) =
      ensureFileContent bin content :=
    hpresent _ (strContains_ensure bin content he)
  have hnl_mark : ('\n' : Char) ∉ EXPORT_MARK.data := by decide
  have hnl_exp : ('\n' : Char) ∉ (exportLine bin).data := by
    intro hmem
    have := exportLine_no_boundary hb '\n' hmem
    exact absurd this (by decide)
  have hlines : pySplitlines (ensureFileContent bin (ensureFileContent bin content)) =
      pySplitlines (content ++ "\n") ++ [EXPORT_MARK, exportLine bin] := by
    rw [hidem, pySplitlines_ensure bin content hb he]
  have hmemzero : ∀ (pat : String), strContains content pat = false →
      ('\n' : Char) ∉ pat.data →
      (pySplitlines (content ++ "\n")).countP (fun l => l == pat) = 0 := by
    intro pat hnc hnl
    rw [List.countP_eq_zero]
    intro l hl hbeq
    obtain rfl : l = pat := by simpa [beq_iff_eq] using hbeq
    have hinf : l.data <:+: (content ++ "\n").data := mem_pySplitlines_substring hl
    rw [data_concat_newline] at hinf
    have h2 : l.data <:+: content.data := substring_of_concat_free hinf hnl
    rw [← strContains_iff content l] at h2
    rw [hnc] at h2
    exact Bool.false_ne_true h2
  refine ⟨hpresent, hidem, ?_, ?_⟩
  · rw [hlines, List.countP_append, hmemzero _ he hnl_exp]
    have hne : (EXPORT_MARK == exportLine bin) = false := by
      simp [exportLine_ne_EXPORT_MARK bin]
      exact fun h => absurd h.symm (exportLine_ne_EXPORT_MARK bin)
    simp [List.countP_cons, hne]
  · rw [hlines, List.countP_append, hmemzero _ hm hnl_mark]
    have hne : (exportLine bin == EXPORT_MARK) = false := by
      simp [exportLine_ne_EXPORT_MARK bin]
    simp [List.countP_cons, hne]

theorem C5_registration_idempotent_witness :
    ensureFileContent "B" (ensureFileContent "B" "alpha") =
      ensureFileContent "B" "alpha" ∧
    (pySplitlines (ensureFileContent "B" (ensureFileContent "B" "alpha"))).countP
      (fun l => l == EXPORT_MARK) = 1 := by
  refine ⟨(C5_registration_idempotent "B" "alpha" ?_ ?_ ?_).2.1,
    (C5_registration_idempotent "B" "alpha" ?_ ?_ ?_).2.2.2⟩ <;> decide

/-! ### Claim C10 -/

/-- Counterexample to claim C10: the content "a\rb\n" ends in exactly
one newline and contains neither marker string, but the round trip
returns "a\nb\n": Python splitlines also splits at the carriage
return, which the join replaces by a line feed. -/
theorem C10_counterexample :
    ("a\rb\n" : String).data.getLast? = some '\n' ∧
    ("a\rb\n" : String).data.dropLast.getLast? ≠ some '\n' ∧
    strContains "a\rb\n" EXPORT_MARK = false ∧
    strContains "a\rb\n" (exportLine "B") = false ∧
    removeFileContent "B" (ensureFileContent "B" "a\rb\n") = "a\nb\n" ∧
    ("a\nb\n" : String) ≠ "a\rb\n" := by
  decide

/-- Claim C10, amended: for content that ends in exactly one newline,
contains neither the export line nor the sentinel as a substring, and
whose line-boundary characters are all line feeds, PATH registration
followed by the uninstall cleanup restores the content exactly. -/
theorem C10_roundtrip (bin content : String)
    (hb : ∀ c ∈ bin.data, isLineBoundary c = false)
    (h5 : ∀ c ∈ content.data, isLineBoundary c = true → c = '\n')
    (h1 : content.data.getLast? = some '\n')
    (h2 : content.data.dropLast.getLast? ≠ some '\n')
    (he : strContains content (exportLine bin) = false)
    (hm : strContains content EXPORT_MARK = false) :
    removeFileContent bin (ensureFileContent bin content) = content := by
  have hnl_mark : ('\n' : Char) ∉ EXPORT_MARK.data := by decide
  have hclean : ∀ l ∈ pySplitlines (content ++ "\n"), pyStrip l ≠ EXPORT_MARK :=
    pyStrip_mem_concat_ne_of_not_contains hm hnl_mark
  rw [removeFileContent, pySplitlines_ensure bin content hb he,
    removeLines_append_clean bin _ _ hclean]
  have hscan : removeLines bin [EXPORT_MARK, exportLine bin] false = [] := by
    rw [removeLines, if_pos pyStrip_EXPORT_MARK, removeLines,
      if_neg ?_, if_pos ⟨rfl, pyStrip_exportLine bin⟩]
    · rfl
    · rw [pyStrip_exportLine]
      exact exportLine_ne_EXPORT_MARK bin
  rw [hscan, List.append_nil]
  show pyJoinNL ((splitlinesL (content ++ "\n").data [] false).map String.mk) = content
  rw [data_concat_newline]
  have honly : ∀ c ∈ content.data ++ ['\n'], isLineBoundary c = true → c = '\n' := by
    intro c hc hbc
    rcases List.mem_append.mp hc with hc' | hc'
    · exact h5 c hc' hbc
    · simpa using hc'
  rw [joinNL_splitlinesL _ honly []]
  show String.mk (dropTrailNL (content.data ++ ['\n'])) = content
  rw [dropTrailNL, if_pos (List.getLast?_concat _), List.dropLast_concat]

theorem C10_roundtrip_witness :
    removeFileContent "B" (ensureFileContent "B" "hi\n") = "hi\n" :=
  C10_roundtrip "B" "hi\n" (by decide) (by decide) (by decide) (by decide)
    (by decide) (by decide)

end InstallEpm
